import Mathlib

/-!
Shallow embedding of the FreeArc-Next ProtoBuf decoder
(`src/ProtoBuf/ProtoBufDecoder.cpp`) and of the code generator
(`src/ProtoBuf/src/generator/generator.cpp`), together with theorems
settling the specification claims about them.

Modelling conventions:
* The byte window is a total function `buf : Int → Nat` (memory), with the
  window being offsets `[0, buf_end)`; `pos` is the cursor (the C `ptr`),
  expressed as an offset from the window start.  `buf_end` is the offset of
  the C `buf_end` pointer.  Offsets are `Int` because the C cursor is a raw
  pointer that pointer arithmetic can move below the window start.
* A memory load of one byte (`*(uint8_t*)ptr`, `memcpy`) yields `buf i % 256`.
* Machine integers are `Nat`/`Int` with explicit reduction: `uint64_t`
  arithmetic is performed modulo `2 ^ 64`; conversions to the signed types
  `int` / `int32_t` / `int64_t` use the two's-complement reinterpretations
  `toInt32` / `toInt64` (C++20 makes these conversions modular).
* C++ exceptions become the `Except` monad; each `std::runtime_error` string
  of the source is represented by the error kind the spec assigns to it.
-/

/-- Decoder error kinds.  Each constructor stands for one of the
`std::runtime_error` messages thrown by the source (spec section 7 taxonomy):
`UnexpectedEnd` for both "Unexpected end of buffer" (thrown by `advance_ptr`)
and "Unexpected end of buffer in varint" (thrown by `read_varint`);
`VarintTooLong` for "More than 10 bytes in varint"; `TypeMismatch` for the
"Can't parse ... with field type ..." messages; `UnsupportedWireType` for
"Unsupported field type ..."; `MissingRequired` for
"Decoded protobuf has no required field ...". -/
inductive PBErr where
  | UnexpectedEnd : PBErr
  | VarintTooLong : PBErr
  | TypeMismatch : String → Int → PBErr
  | UnsupportedWireType : Int → PBErr
  | MissingRequired : String → String → PBErr
deriving DecidableEq, Repr

/-- State of `struct ProtoBufDecoder`: the borrowed byte window plus cursor.
`buf` is the surrounding memory, `buf_end` the window length (offset of the
C `buf_end` pointer from `view.data()`), `pos` the offset of the C `ptr`. -/
structure ProtoBufDecoder where
  buf : Int → Nat
  buf_end : Int
  pos : Int

/-- One byte loaded from memory at offset `i` (a `uint8_t` load). -/
def byteAt (s : ProtoBufDecoder) (i : Int) : Nat :=
  s.buf i % 256

/-- Two's-complement reinterpretation of a natural number as a C `int` /
`int32_t` (modular conversion, C++20 semantics). -/
def toInt32 (n : Nat) : Int :=
  if n % 2 ^ 32 < 2 ^ 31 then ((n % 2 ^ 32 : Nat) : Int)
  else ((n % 2 ^ 32 : Nat) : Int) - 2 ^ 32

/-- Two's-complement reinterpretation of a natural number as an `int64_t`. -/
def toInt64 (n : Nat) : Int :=
  if n % 2 ^ 64 < 2 ^ 63 then ((n % 2 ^ 64 : Nat) : Int)
  else ((n % 2 ^ 64 : Nat) : Int) - 2 ^ 64

/-- `ProtoBufDecoder::advance_ptr(int bytes)`: bounds-checked cursor move.
The parameter has C type `int`, hence `bytes : Int` here; callers that pass a
`uint64_t` go through `toInt32` (the C++20 narrowing conversion). -/
def advance_ptr (s : ProtoBufDecoder) (bytes : Int) : Except PBErr ProtoBufDecoder :=
  if s.buf_end - s.pos < bytes then .error .UnexpectedEnd
  else .ok { s with pos := s.pos + bytes }

/-- Body of the `do`-`while` loop of `ProtoBufDecoder::read_varint`, carrying
the `value` and `shift` locals.  The checks appear in source order: window
end first, then the shift bound; `value |= ((byte & 127) << shift)` is
`uint64_t` arithmetic, i.e. performed modulo `2 ^ 64`. -/
def read_varint_loop (s : ProtoBufDecoder) (value : Nat) (shift : Nat) :
    Except PBErr (Nat × ProtoBufDecoder) :=
  if s.pos = s.buf_end then .error .UnexpectedEnd
  else if 64 ≤ shift then .error .VarintTooLong
  else
    let b := byteAt s s.pos
    let value' := value ||| (((b &&& 127) <<< shift) % 2 ^ 64)
    let s' : ProtoBufDecoder := { s with pos := s.pos + 1 }
    if b &&& 128 = 0 then .ok (value', s')
    else read_varint_loop s' value' (shift + 7)
termination_by 64 - shift
decreasing_by omega

/-- `ProtoBufDecoder::read_varint()`. -/
def read_varint (s : ProtoBufDecoder) : Except PBErr (Nat × ProtoBufDecoder) :=
  read_varint_loop s 0 0

/-- Little-endian value of `w` bytes of memory starting at offset `p`
(the `memcpy` into a fixed-width integer). -/
def leValue (buf : Int → Nat) (p : Int) : Nat → Nat
  | 0 => 0
  | w + 1 => buf p % 256 + 256 * leValue buf (p + 1) w

/-- `ProtoBufDecoder::read_fixed_width<FixedType>()` for an integer type of
`w` bytes: remembers `old_ptr`, advances, then loads the bytes little-endian.
(For the floating-point instantiations the result is the raw bit pattern;
IEEE-754 interpretation is outside this embedding.) -/
def read_fixed_width (s : ProtoBufDecoder) (w : Nat) :
    Except PBErr (Nat × ProtoBufDecoder) :=
  match advance_ptr s (w : Int) with
  | .error e => .error e
  | .ok s' => .ok (leValue s.buf s.pos w, s')

/-- `ProtoBufDecoder::parse_fp_value(int wire_type)`; the returned `Nat` is
the raw little-endian bit pattern of the `double` (8 bytes) or `float`
(4 bytes). -/
def parse_fp_value (s : ProtoBufDecoder) (wire_type : Int) :
    Except PBErr (Nat × ProtoBufDecoder) :=
  if wire_type = 1 then read_fixed_width s 8
  else if wire_type = 5 then read_fixed_width s 4
  else .error (.TypeMismatch "floating-point" wire_type)

/-- `ProtoBufDecoder::parse_integer_value(int wire_type)`. -/
def parse_integer_value (s : ProtoBufDecoder) (wire_type : Int) :
    Except PBErr (Nat × ProtoBufDecoder) :=
  if wire_type = 0 then read_varint s
  else if wire_type = 1 then read_fixed_width s 8
  else if wire_type = 5 then read_fixed_width s 4
  else .error (.TypeMismatch "integral" wire_type)

/-- `ProtoBufDecoder::parse_zigzag_value(int wire_type)`.  In the VARINT case
the source computes `(value >> 1) ^ (- int64_t(value & 1))`: the negation of
the low bit is `0` or `-1` as `int64_t`, which the `^` converts back to
`uint64_t` as `0` or `2 ^ 64 - 1`; the `int64_t` return reinterprets the
`uint64_t` result.  The FIXED64/FIXED32 cases reinterpret the little-endian
bytes as `int64_t` / `int32_t` (the latter sign-extends into the return
type). -/
def parse_zigzag_value (s : ProtoBufDecoder) (wire_type : Int) :
    Except PBErr (Int × ProtoBufDecoder) :=
  if wire_type = 0 then
    match read_varint s with
    | .error e => .error e
    | .ok (value, s') =>
        .ok (toInt64 ((value >>> 1) ^^^ ((2 ^ 64 - 1) * (value &&& 1))), s')
  else if wire_type = 1 then
    match read_fixed_width s 8 with
    | .error e => .error e
    | .ok (v, s') => .ok (toInt64 v, s')
  else if wire_type = 5 then
    match read_fixed_width s 4 with
    | .error e => .error e
    | .ok (v, s') => .ok (toInt32 v, s')
  else .error (.TypeMismatch "zigzag integral" wire_type)

/-- A `std::string_view` into memory: start offset and length. -/
structure ByteView where
  start : Int
  length : Nat
deriving DecidableEq, Repr

/-- `ProtoBufDecoder::parse_bytearray_value(int wire_type)`: reads the length
varint `len` (a `uint64_t`), calls `advance_ptr(len)` — which narrows `len`
to `int`, hence `toInt32` — and returns the view `{ptr - len, len}`. -/
def parse_bytearray_value (s : ProtoBufDecoder) (wire_type : Int) :
    Except PBErr (ByteView × ProtoBufDecoder) :=
  if wire_type = 2 then
    match read_varint s with
    | .error e => .error e
    | .ok (len, s1) =>
        match advance_ptr s1 (toInt32 len) with
        | .error e => .error e
        | .ok s2 => .ok (⟨s2.pos - (len : Int), len⟩, s2)
  else .error (.TypeMismatch "bytearray" wire_type)

/-- `ProtoBufDecoder::get_next_field(int* field_num, int* wire_type)`:
returns `none` (C `false`) at the window end, otherwise reads one tag varint
and splits it; both outputs are stored through `int*`, hence `toInt32`. -/
def get_next_field (s : ProtoBufDecoder) :
    Except PBErr (Option ((Int × Int) × ProtoBufDecoder)) :=
  if s.pos = s.buf_end then .ok none
  else
    match read_varint s with
    | .error e => .error e
    | .ok (number, s') =>
        .ok (some ((toInt32 (number >>> 3), toInt32 (number &&& 7)), s'))

/-- `ProtoBufDecoder::skip_field(int wire_type)`.  The LEN branch reads the
length varint (`uint64_t`) and passes it to `advance_ptr`, narrowing it to
`int` exactly as `parse_bytearray_value` does. -/
def skip_field (s : ProtoBufDecoder) (wire_type : Int) :
    Except PBErr ProtoBufDecoder :=
  if wire_type = 0 then
    match read_varint s with
    | .error e => .error e
    | .ok (_, s') => .ok s'
  else if wire_type = 5 then advance_ptr s 4
  else if wire_type = 1 then advance_ptr s 8
  else if wire_type = 2 then
    match read_varint s with
    | .error e => .error e
    | .ok (len, s1) => advance_ptr s1 (toInt32 len)
  else .error (.UnsupportedWireType wire_type)

/-- Decidable equality for `Except`, used to evaluate concrete runs. -/
instance exceptDecEq {ε α : Type} [DecidableEq ε] [DecidableEq α] :
    DecidableEq (Except ε α) := fun x y =>
  match x, y with
  | .error e, .error f => decidable_of_iff (e = f) (by simp)
  | .error _, .ok _ => isFalse (by simp)
  | .ok _, .error _ => isFalse (by simp)
  | .ok a, .ok b => decidable_of_iff (a = b) (by simp)

/-- Specification-side value of a varint: the `k` low-7-bit groups of the
bytes at offsets `p, p+1, ...`, concatenated LSB-first. -/
def varintSpecVal (buf : Int → Nat) (p : Int) : Nat → Nat
  | 0 => 0
  | k + 1 => ((buf p % 256) &&& 127) + 128 * varintSpecVal buf (p + 1) k

/-- Specification-side ZigZag decoding: the signed value whose magnitude
interleaving produced the unsigned code `n` (even codes are the non-negative
values, odd codes the negative ones). -/
def zigzag_decode (n : Nat) : Int :=
  if n % 2 = 0 then ((n / 2 : Nat) : Int) else -((n / 2 : Nat) : Int) - 1

/-- Specification-side two's-complement reinterpretation of a `w`-bit
unsigned value: the unique integer in `[-2^(w-1), 2^(w-1))` congruent to `v`
modulo `2^w`. -/
def twosComplement (w : Nat) (v : Nat) : Int :=
  if v % 2 ^ w < 2 ^ (w - 1) then ((v % 2 ^ w : Nat) : Int)
  else ((v % 2 ^ w : Nat) : Int) - 2 ^ w

/-! Generator embedding (`src/ProtoBuf/src/generator/generator.cpp`).

The descriptor entities below are the inputs to the generator.  Their C++
decode routines live in `descriptor.pb.cpp`, which is not part of the
sources; the record shapes are modelled from the spec.  The generator logic
itself (`domain_string`, `base_type_string`, `type_string`, `generator`,
`main`) is translated from `generator.cpp`.

The source emits C++ text through `std::format` templates; emission is
modelled structurally: each formatted fragment appended to one of the four
accumulator strings (`fields_defs`, `has_fields_defs`, `decode_cases`,
`check_required_fields`) is represented by a record carrying exactly the
arguments substituted into the corresponding format string. -/

/-- Modelled from the spec: `FieldDescriptorProto::Label` of the descriptor
schema (`descriptor.pb.cpp` is not among the sources). -/
inductive Label where
  | LABEL_OPTIONAL : Label
  | LABEL_REQUIRED : Label
  | LABEL_REPEATED : Label
deriving DecidableEq, Repr

/-- Modelled from the spec: `FieldDescriptorProto::Type` of the descriptor
schema. -/
inductive FieldType where
  | TYPE_DOUBLE | TYPE_FLOAT
  | TYPE_INT64 | TYPE_UINT64 | TYPE_INT32
  | TYPE_FIXED64 | TYPE_FIXED32
  | TYPE_BOOL | TYPE_STRING | TYPE_GROUP | TYPE_MESSAGE | TYPE_BYTES
  | TYPE_UINT32 | TYPE_ENUM
  | TYPE_SFIXED32 | TYPE_SFIXED64
  | TYPE_SINT32 | TYPE_SINT64
deriving DecidableEq, Repr

/-- Modelled from the spec: the attributes of `FieldDescriptorProto` that
`generator.cpp` reads. -/
structure FieldDescriptorProto where
  name : String
  number : Int
  label : Label
  type : FieldType
  type_name : String
  has_default_value : Bool
  default_value : String
deriving DecidableEq, Repr

/-- Modelled from the spec: `DescriptorProto` (one message declaration). -/
structure DescriptorProto where
  name : String
  field : List FieldDescriptorProto
deriving DecidableEq, Repr

/-- Modelled from the spec: `FileDescriptorProto`. -/
structure FileDescriptorProto where
  message_type : List DescriptorProto
deriving DecidableEq, Repr

/-- Modelled from the spec: `FileDescriptorSet`. -/
structure FileDescriptorSet where
  file : List FileDescriptorProto
deriving DecidableEq, Repr

/-- `domain_string(FieldDescriptorProto&)` of `generator.cpp`. -/
def domain_string (field : FieldDescriptorProto) : String :=
  match field.type with
  | .TYPE_DOUBLE | .TYPE_FLOAT => "fp"
  | .TYPE_SINT32 | .TYPE_SINT64 => "zigzag"
  | .TYPE_STRING | .TYPE_BYTES => "bytearray"
  | .TYPE_MESSAGE => "message"
  | .TYPE_GROUP => "?group"
  | _ => "integral"

/-- `base_type_string(FieldDescriptorProto&)` of `generator.cpp` (its final
`return "?type"` is unreachable: the `switch` covers every enumerator). -/
def base_type_string (field : FieldDescriptorProto) : String :=
  match field.type with
  | .TYPE_INT32 | .TYPE_SINT32 | .TYPE_SFIXED32 => "int32_t"
  | .TYPE_INT64 | .TYPE_SINT64 | .TYPE_SFIXED64 => "int64_t"
  | .TYPE_UINT32 | .TYPE_FIXED32 => "uint32_t"
  | .TYPE_UINT64 | .TYPE_FIXED64 => "uint64_t"
  | .TYPE_DOUBLE => "double"
  | .TYPE_FLOAT => "float"
  | .TYPE_BOOL => "bool"
  | .TYPE_ENUM => "int32_t"
  | .TYPE_STRING | .TYPE_BYTES => "std::string_view"
  | .TYPE_MESSAGE => field.type_name.drop 1
  | .TYPE_GROUP => "?group"

/-- `type_string(FieldDescriptorProto&)` of `generator.cpp`. -/
def type_string (field : FieldDescriptorProto) : String :=
  if field.label = .LABEL_REPEATED then "std::vector<" ++ base_type_string field ++ ">"
  else base_type_string field

/-- The initializer text appended to a field declaration (`default_str` of
the generator loop): empty unless `has_default_value`, and quote-wrapped for
STRING/BYTES fields. -/
def default_string (field : FieldDescriptorProto) : String :=
  if field.has_default_value then
    if field.type = .TYPE_STRING ∨ field.type = .TYPE_BYTES then
      " = \"" ++ field.default_value ++ "\""
    else " = " ++ field.default_value
  else ""

/-- One fragment of `fields_defs`: the arguments of
`format("    \x7b\x7d \x7b\x7d\x7b\x7d;\n", type_str, field.name, default_str)`. -/
structure FieldDef where
  type_str : String
  name : String
  default_str : String
deriving DecidableEq, Repr

/-- One fragment of `has_fields_defs`: the flag declaration
`bool has_<name> = false;` (`init` is the emitted initializer, always
`false`). -/
structure HasFieldDef where
  name : String
  init : Bool
deriving DecidableEq, Repr

/-- One fragment of `decode_cases`: the arguments of
`format("            case \x7b\x7d: \x7b\x7d; break;\n", field.number, decoder)`,
where `decoder` is `pb.parse_repeated_<domain>_field( wire_type, &<name>)`
when `repeated` and `pb.parse_<domain>_field( wire_type, &<name>, &has_<name>)`
otherwise. -/
structure DecodeCase where
  number : Int
  repeated : Bool
  domain : String
  field_name : String
deriving DecidableEq, Repr

/-- One fragment of `check_required_fields`: the arguments of
`CHECK_REQUIRED_FIELD_TEMPLATE` (message name and field name). -/
structure ReqCheck where
  message_name : String
  field_name : String
deriving DecidableEq, Repr

/-- The pieces substituted into `MESSAGE_TEMPLATE` for one message. -/
structure MessageOut where
  name : String
  fields_defs : List FieldDef
  has_fields_defs : List HasFieldDef
  decode_cases : List DecodeCase
  check_required_fields : List ReqCheck
deriving DecidableEq, Repr

/-- Body of the per-field loop of `generator()`: appends to the four
accumulators exactly what the `+=` statements of the source append. -/
def genField (message_name : String) (acc : MessageOut)
    (field : FieldDescriptorProto) : MessageOut :=
  { acc with
    fields_defs :=
      acc.fields_defs ++ [⟨type_string field, field.name, default_string field⟩],
    has_fields_defs :=
      acc.has_fields_defs ++
        (if field.label ≠ .LABEL_REPEATED then [⟨field.name, false⟩] else []),
    decode_cases :=
      acc.decode_cases ++
        [⟨field.number, field.label = .LABEL_REPEATED, domain_string field,
          field.name⟩],
    check_required_fields :=
      acc.check_required_fields ++
        (if field.label = .LABEL_REQUIRED then [⟨message_name, field.name⟩]
         else []) }

/-- The per-message emission of `generator()`: the four accumulators start
empty and the loop runs over the message's fields in order. -/
def genMessage (message_type : DescriptorProto) : MessageOut :=
  message_type.field.foldl (genField message_type.name)
    ⟨message_type.name, [], [], [], []⟩

/-- The dispatch performed by the `switch(field_num)` statement emitted from
`MESSAGE_TEMPLATE`: the first case whose label is `field_num` runs its parse
call; the `default:` case runs `pb.skip_field(wire_type)`. -/
inductive DispatchAction where
  | parse_field : String → String → DispatchAction
  | parse_repeated_field : String → String → DispatchAction
  | skip_unknown : DispatchAction
deriving DecidableEq, Repr

/-- Semantics of the emitted `switch`: select the action for a field number. -/
def dispatch_case (cases : List DecodeCase) (field_num : Int) : DispatchAction :=
  match cases.find? (fun c => c.number == field_num) with
  | some c =>
      if c.repeated then .parse_repeated_field c.domain c.field_name
      else .parse_field c.domain c.field_name
  | none => .skip_unknown

/-- Semantics of the emitted required-field checks: the checks run in
emission order after the dispatch loop, and the first one whose presence
flag is unset throws `MissingRequired` (CHECK_REQUIRED_FIELD_TEMPLATE). -/
def run_required_checks (checks : List ReqCheck) (has : String → Bool) :
    Except PBErr Unit :=
  match checks with
  | [] => .ok ()
  | c :: rest =>
      if has c.field_name = false then
        .error (.MissingRequired c.message_name c.field_name)
      else run_required_checks rest has

/-- The required-field check of the hand-written example
(`Example.pb.cpp`, `Filter::ProtoBufDecode`, lines 63-65): after the
dispatch loop, `if(! has_size) throw ... "Filter.size"`. -/
def Filter_check_required (has_size : Bool) : Except PBErr Unit :=
  if has_size = false then .error (.MissingRequired "Filter" "size")
  else .ok ()

/-- `generator(FileDescriptorSet&)`: processes `proto.file[0]` — the
indexing has no emptiness check, so the out-of-bounds branch of the total
lookup is `none` — and emits one `MESSAGE_TEMPLATE` instance per message. -/
def generator (proto : FileDescriptorSet) : Option (List MessageOut) :=
  match proto.file[0]? with
  | none => none
  | some file => some (file.message_type.map genMessage)

/-- `main(int argc, char** argv)` of `generator.cpp`, with the descriptor
file's decode outcome abstracted as `decode_result` (the decode routine
itself is generated code in `descriptor.pb.cpp`, outside the sources).
Result: (exit code, whether the catch block printed the "Internal error"
diagnostic to stderr).  With wrong usage it prints USAGE and returns 1;
otherwise the catch block swallows any decode error, prints the diagnostic,
and execution falls through to `return 0`. -/
def main_model (argc : Nat) (decode_result : Except PBErr Unit) : Nat × Bool :=
  if argc ≠ 2 then (1, false)
  else
    match decode_result with
    | .ok _ => (0, false)
    | .error _ => (0, true)

/-! Concrete windows used to witness and refute claims.  Each buffer is a
total memory function; offsets outside the listed window hold `0`. -/

/-- Window `80 01` (varint 128). -/
def bufC1a : Int → Nat := fun i => if i = 0 then 128 else if i = 1 then 1 else 0

/-- Decoder over `bufC1a`, window length 2, cursor at start. -/
def stC1a : ProtoBufDecoder := ⟨bufC1a, 2, 0⟩

/-- Window of eleven `80` bytes (11 continuation bytes). -/
def stC1b : ProtoBufDecoder := ⟨fun _ => 128, 11, 0⟩

/-- Window `80 80 80 80 10` (varint `2^32`) with nothing after it. -/
def bufC2 : Int → Nat := fun i => if 0 ≤ i ∧ i < 4 then 128 else if i = 4 then 16 else 0

/-- Decoder over `bufC2`, window length 5. -/
def stC2 : ProtoBufDecoder := ⟨bufC2, 5, 0⟩

/-- Window `80 80 80 80 08` (varint `2^31`) with nothing after it. -/
def bufC3 : Int → Nat := fun i => if 0 ≤ i ∧ i < 4 then 128 else if i = 4 then 8 else 0

/-- Decoder over `bufC3`, window length 5. -/
def stC3 : ProtoBufDecoder := ⟨bufC3, 5, 0⟩

/-- The empty window. -/
def stC4a : ProtoBufDecoder := ⟨fun _ => 0, 0, 0⟩

/-- Window holding the single byte `80`: a truncated tag varint. -/
def stC4b : ProtoBufDecoder := ⟨fun _ => 128, 1, 0⟩

/-- Window `03` (varint 3). -/
def stC5a : ProtoBufDecoder := ⟨fun i => if i = 0 then 3 else 0, 1, 0⟩

/-- Window `FF FF FF FF` (fixed32 value `2^32 - 1`). -/
def stC5b : ProtoBufDecoder := ⟨fun i => if 0 ≤ i ∧ i < 4 then 255 else 0, 4, 0⟩

/-- Window of length `2^31 + 5` holding the varint `2^31` (bytes
`80 80 80 80 08`) followed by `2^31` zero payload bytes: a well-formed
LEN value whose length is `2^31`. -/
def bufC6 : Int → Nat := fun i => if 0 ≤ i ∧ i < 4 then 128 else if i = 4 then 8 else 0

/-- Decoder over `bufC6`, window length `2^31 + 5`. -/
def stC6 : ProtoBufDecoder := ⟨bufC6, 2 ^ 31 + 5, 0⟩

/-- A two-field message descriptor: `required int64 size = 1;` and
`repeated uint32 more_ints = 11;`. -/
def exampleMsg : DescriptorProto :=
  ⟨"Filter",
   [⟨"size", 1, .LABEL_REQUIRED, .TYPE_INT64, "", false, ""⟩,
    ⟨"more_ints", 11, .LABEL_REPEATED, .TYPE_UINT32, "", false, ""⟩]⟩

/-- Unfolding of one iteration of the varint loop when neither error check
fires. -/
theorem read_varint_loop_step (s : ProtoBufDecoder) (value shift : Nat)
    (hne : s.pos ≠ s.buf_end) (hsh : shift < 64) :
    read_varint_loop s value shift =
      if byteAt s s.pos &&& 128 = 0 then
        .ok (value ||| (((byteAt s s.pos &&& 127) <<< shift) % 2 ^ 64),
          { s with pos := s.pos + 1 })
      else
        read_varint_loop { s with pos := s.pos + 1 }
          (value ||| (((byteAt s s.pos &&& 127) <<< shift) % 2 ^ 64)) (shift + 7) := by
  rw [read_varint_loop]
  simp only [if_neg hne, if_neg (by omega : ¬ 64 ≤ shift)]

/-- Key accumulator fact: or-ing a 7-bit chunk shifted past every bit of the
accumulator equals addition, modulo the `uint64_t` width. -/
theorem or_shift_chunk (value c j : Nat) (hv : value < 2 ^ (7 * j)) (hj : j ≤ 9) :
    value ||| ((c <<< (7 * j)) % 2 ^ 64) = (value + c * 2 ^ (7 * j)) % 2 ^ 64 := by
  have hn63 : 7 * j ≤ 63 := by omega
  have hsplit : (2 : Nat) ^ 64 = 2 ^ (64 - 7 * j) * 2 ^ (7 * j) := by
    rw [← pow_add]; congr 1; omega
  have hmod : (c * 2 ^ (7 * j)) % 2 ^ 64 = (c % 2 ^ (64 - 7 * j)) * 2 ^ (7 * j) := by
    rw [hsplit, Nat.mul_mod_mul_right]
  have hrlt : c % 2 ^ (64 - 7 * j) < 2 ^ (64 - 7 * j) :=
    Nat.mod_lt _ (Nat.two_pow_pos _)
  have hor : value ||| (c % 2 ^ (64 - 7 * j)) * 2 ^ (7 * j) =
      value + (c % 2 ^ (64 - 7 * j)) * 2 ^ (7 * j) := by
    have h := Nat.mul_add_lt_is_or hv (c % 2 ^ (64 - 7 * j))
    rw [Nat.or_comm, Nat.mul_comm (2 ^ (7 * j)), Nat.add_comm] at h
    exact h.symm
  have h1 : (c % 2 ^ (64 - 7 * j)) * 2 ^ (7 * j) + 2 ^ (7 * j) ≤
      2 ^ (64 - 7 * j) * 2 ^ (7 * j) := by
    calc (c % 2 ^ (64 - 7 * j)) * 2 ^ (7 * j) + 2 ^ (7 * j)
        = (c % 2 ^ (64 - 7 * j) + 1) * 2 ^ (7 * j) := by ring
      _ ≤ 2 ^ (64 - 7 * j) * 2 ^ (7 * j) := Nat.mul_le_mul_right _ hrlt
  have hlt : value + (c % 2 ^ (64 - 7 * j)) * 2 ^ (7 * j) < 2 ^ 64 := by omega
  have hv64 : value % 2 ^ 64 = value := by
    have hpow : (2 : Nat) ^ (7 * j) ≤ 2 ^ 63 := Nat.pow_le_pow_right (by norm_num) hn63
    exact Nat.mod_eq_of_lt (by omega)
  rw [Nat.shiftLeft_eq, hmod, hor, Nat.add_mod, hmod, hv64, Nat.mod_eq_of_lt hlt]

/-- Loop invariant of `read_varint`: started at shift `7 * j` on `k`
remaining well-formed varint bytes, the loop consumes exactly `k` bytes and
adds the LSB-first concatenation of their low 7 bits (shifted by `7 * j`)
into the accumulator, modulo `2 ^ 64`. -/
theorem read_varint_loop_ok (k : Nat) :
    ∀ (s : ProtoBufDecoder) (value j : Nat),
      1 ≤ k → j + k ≤ 10 →
      s.pos + (k : Int) ≤ s.buf_end →
      (∀ i : Nat, i < k - 1 → byteAt s (s.pos + (i : Int)) &&& 128 ≠ 0) →
      byteAt s (s.pos + ((k - 1 : Nat) : Int)) &&& 128 = 0 →
      value < 2 ^ (7 * j) →
      read_varint_loop s value (7 * j) =
        .ok ((value + varintSpecVal s.buf s.pos k * 2 ^ (7 * j)) % 2 ^ 64,
          { s with pos := s.pos + (k : Int) }) := by
  induction k with
  | zero => intro s value j h1 _ _ _ _ _; omega
  | succ k ih =>
    intro s value j _ h2 h3 h4 h5 h6
    have hne : s.pos ≠ s.buf_end := by
      have : s.pos < s.buf_end := by push_cast at h3; omega
      exact ne_of_lt this
    rw [read_varint_loop_step s value (7 * j) hne (by omega)]
    have hc : byteAt s s.pos &&& 127 < 128 :=
      lt_of_le_of_lt Nat.and_le_right (by norm_num)
    rcases Nat.eq_zero_or_pos k with hk | hk
    · -- single byte: the continuation bit of the only byte is clear
      subst hk
      have h5' : byteAt s s.pos &&& 128 = 0 := by simpa using h5
      rw [if_pos h5']
      rw [or_shift_chunk value _ j h6 (by omega)]
      have hval : varintSpecVal s.buf s.pos 1 = byteAt s s.pos &&& 127 := by
        simp [varintSpecVal, byteAt]
      rw [hval]
      norm_num
    · -- at least two bytes: the first byte has its continuation bit set
      have hcont : byteAt s s.pos &&& 128 ≠ 0 := by
        have := h4 0 (by omega)
        simpa using this
      rw [if_neg hcont]
      have hj8 : j ≤ 8 := by omega
      have hnotrunc : ((byteAt s s.pos &&& 127) <<< (7 * j)) % 2 ^ 64 =
          (byteAt s s.pos &&& 127) * 2 ^ (7 * j) := by
        rw [Nat.shiftLeft_eq]
        apply Nat.mod_eq_of_lt
        calc (byteAt s s.pos &&& 127) * 2 ^ (7 * j)
            ≤ 127 * 2 ^ (7 * j) := Nat.mul_le_mul_right _ (by omega)
          _ ≤ 127 * 2 ^ 56 :=
              Nat.mul_le_mul_left _ (Nat.pow_le_pow_right (by norm_num) (by omega))
          _ < 2 ^ 64 := by norm_num
      rw [hnotrunc]
      have hor : value ||| (byteAt s s.pos &&& 127) * 2 ^ (7 * j) =
          value + (byteAt s s.pos &&& 127) * 2 ^ (7 * j) := by
        have h := Nat.mul_add_lt_is_or h6 (byteAt s s.pos &&& 127)
        rw [Nat.or_comm, Nat.mul_comm (2 ^ (7 * j)), Nat.add_comm] at h
        exact h.symm
      rw [hor]
      have hpow7 : (2 : Nat) ^ (7 * (j + 1)) = 128 * 2 ^ (7 * j) := by
        rw [show 7 * (j + 1) = 7 + 7 * j from by ring, pow_add]
        norm_num
      have h127 : (byteAt s s.pos &&& 127) * 2 ^ (7 * j) ≤ 127 * 2 ^ (7 * j) :=
        Nat.mul_le_mul_right _ (by omega)
      have harith : 7 * j + 7 = 7 * (j + 1) := by ring
      rw [harith]
      have hih := ih { s with pos := s.pos + 1 }
        (value + (byteAt s s.pos &&& 127) * 2 ^ (7 * j)) (j + 1)
        hk (by omega)
        (by simp only; push_cast at h3 ⊢; omega)
        (by
          intro i hi
          have := h4 (i + 1) (by omega)
          simp only
          have hcast : s.pos + 1 + (i : Int) = s.pos + ((i + 1 : Nat) : Int) := by
            push_cast; ring
          rw [show byteAt { s with pos := s.pos + 1 } (s.pos + 1 + (i : Int)) =
              byteAt s (s.pos + 1 + (i : Int)) from rfl, hcast]
          exact this)
        (by
          simp only
          have hcast : s.pos + 1 + ((k - 1 : Nat) : Int) =
              s.pos + ((k + 1 - 1 : Nat) : Int) := by
            push_cast [Nat.cast_sub hk]; ring
          rw [show byteAt { s with pos := s.pos + 1 } (s.pos + 1 + ((k - 1 : Nat) : Int)) =
              byteAt s (s.pos + 1 + ((k - 1 : Nat) : Int)) from rfl, hcast]
          exact h5)
        (by
          rw [hpow7]
          omega)
      rw [hih]
      have hv : varintSpecVal s.buf s.pos (k + 1) =
          (byteAt s s.pos &&& 127) + 128 * varintSpecVal s.buf (s.pos + 1) k := by
        simp [varintSpecVal, byteAt]
      simp only [Except.ok.injEq, Prod.mk.injEq, ProtoBufDecoder.mk.injEq]
      refine ⟨?_, trivial, trivial, ?_⟩
      · rw [hv, hpow7]
        congr 1
        ring
      · push_cast
        ring

/-- Started at shift `7 * j` with `m` continuation bytes remaining,
`j + m = 10`, and at least one further byte inside the window, the loop
fails with `VarintTooLong`. -/
theorem read_varint_loop_toolong (m : Nat) :
    ∀ (s : ProtoBufDecoder) (value j : Nat),
      j + m = 10 →
      s.pos + (m : Int) < s.buf_end →
      (∀ i : Nat, i < m → byteAt s (s.pos + (i : Int)) &&& 128 ≠ 0) →
      read_varint_loop s value (7 * j) = .error .VarintTooLong := by
  induction m with
  | zero =>
    intro s value j hj hlen _
    rw [read_varint_loop]
    have hne : s.pos ≠ s.buf_end := by push_cast at hlen; omega
    rw [if_neg hne, if_pos (by omega : 64 ≤ 7 * j)]
  | succ m ih =>
    intro s value j hj hlen hcont
    have hne : s.pos ≠ s.buf_end := by push_cast at hlen; omega
    rw [read_varint_loop_step s value (7 * j) hne (by omega)]
    rw [if_neg (by simpa using hcont 0 (by omega))]
    rw [show 7 * j + 7 = 7 * (j + 1) from by ring]
    apply ih _ _ (j + 1) (by omega)
    · simp only
      push_cast at hlen ⊢
      omega
    · intro i hi
      have := hcont (i + 1) (by omega)
      have hcast : s.pos + 1 + (i : Int) = s.pos + ((i + 1 : Nat) : Int) := by
        push_cast; ring
      rw [show byteAt { s with pos := s.pos + 1 } (s.pos + 1 + (i : Int)) =
          byteAt s (s.pos + 1 + (i : Int)) from rfl, hcast]
      exact this

/-- Started on `m` continuation bytes that fill the window exactly, the
loop fails with `UnexpectedEnd`. -/
theorem read_varint_loop_hits_end (m : Nat) :
    ∀ (s : ProtoBufDecoder) (value j : Nat),
      m + j ≤ 10 →
      s.pos + (m : Int) = s.buf_end →
      (∀ i : Nat, i < m → byteAt s (s.pos + (i : Int)) &&& 128 ≠ 0) →
      read_varint_loop s value (7 * j) = .error .UnexpectedEnd := by
  induction m with
  | zero =>
    intro s value j _ hlen _
    rw [read_varint_loop]
    rw [if_pos (by push_cast at hlen; omega : s.pos = s.buf_end)]
  | succ m ih =>
    intro s value j hj hlen hcont
    have hne : s.pos ≠ s.buf_end := by push_cast at hlen; omega
    rw [read_varint_loop_step s value (7 * j) hne (by omega)]
    rw [if_neg (by simpa using hcont 0 (by omega))]
    rw [show 7 * j + 7 = 7 * (j + 1) from by ring]
    apply ih _ _ (j + 1) (by omega)
    · simp only
      push_cast at hlen ⊢
      omega
    · intro i hi
      have := hcont (i + 1) (by omega)
      have hcast : s.pos + 1 + (i : Int) = s.pos + ((i + 1 : Nat) : Int) := by
        push_cast; ring
      rw [show byteAt { s with pos := s.pos + 1 } (s.pos + 1 + (i : Int)) =
          byteAt s (s.pos + 1 + (i : Int)) from rfl, hcast]
      exact this

/-- C1: for every well-formed varint byte sequence of length `k ≤ 10` at
the cursor (continuation bit set on every byte but the last, clear on the
last, all inside the window), `read_varint` consumes exactly `k` bytes and
returns the 64-bit value that concatenates the low 7 bits of each byte
LSB-first (reduced modulo `2 ^ 64`); and for a sequence whose first 10
bytes all carry the continuation bit with an 11th byte present in the
window, it fails with `VarintTooLong`. -/
theorem read_varint_spec :
    (∀ (s : ProtoBufDecoder) (k : Nat), 1 ≤ k → k ≤ 10 →
        s.pos + (k : Int) ≤ s.buf_end →
        (∀ i : Nat, i < k - 1 → byteAt s (s.pos + (i : Int)) &&& 128 ≠ 0) →
        byteAt s (s.pos + ((k - 1 : Nat) : Int)) &&& 128 = 0 →
        read_varint s =
          .ok (varintSpecVal s.buf s.pos k % 2 ^ 64,
            { s with pos := s.pos + (k : Int) }))
  ∧ (∀ s : ProtoBufDecoder,
        (∀ i : Nat, i < 10 → byteAt s (s.pos + (i : Int)) &&& 128 ≠ 0) →
        s.pos + 11 ≤ s.buf_end →
        read_varint s = .error .VarintTooLong) := by
  constructor
  · intro s k h1 h2 h3 h4 h5
    have h := read_varint_loop_ok k s 0 0 h1 (by omega) h3 h4 h5 (by norm_num)
    simpa [read_varint] using h
  · intro s hcont hlen
    have h := read_varint_loop_toolong 10 s 0 0 (by norm_num)
      (by push_cast; omega) hcont
    simpa [read_varint] using h

/-- Witness for C1 at the spec's concrete vectors: `80 01` decodes to 128
consuming 2 bytes, and eleven continuation bytes fail with
`VarintTooLong`. -/
theorem read_varint_spec_witness :
    (read_varint stC1a).map (fun p => (p.1, p.2.pos)) = .ok (128, 2)
  ∧ read_varint stC1b = .error .VarintTooLong := by
  constructor
  · have h := read_varint_spec.1 stC1a 2 (by norm_num) (by norm_num)
      (by decide) (by decide) (by decide)
    rw [h]
    decide
  · exact read_varint_spec.2 stC1b (by decide) (by decide)

/-- C4: `get_next_field` returns end-of-stream exactly when the cursor sits
at the window end before the call (so whenever end-of-stream is returned
the cursor equals the window end, and the empty window yields end-of-stream
immediately); when bytes remain but every remaining byte carries the
continuation bit (an incomplete tag varint, at most 10 bytes), the call
fails with `UnexpectedEnd` instead of returning end-of-stream. -/
theorem get_next_field_spec :
    (∀ s : ProtoBufDecoder, get_next_field s = .ok none ↔ s.pos = s.buf_end)
  ∧ (∀ s : ProtoBufDecoder,
        s.pos < s.buf_end →
        s.buf_end - s.pos ≤ 10 →
        (∀ i : Nat, s.pos + (i : Int) < s.buf_end →
          byteAt s (s.pos + (i : Int)) &&& 128 ≠ 0) →
        get_next_field s = .error .UnexpectedEnd) := by
  constructor
  · intro s
    constructor
    · intro h
      by_contra hne
      unfold get_next_field at h
      rw [if_neg hne] at h
      cases hr : read_varint s with
      | error e => rw [hr] at h; simp at h
      | ok p => rw [hr] at h; simp at h
    · intro h
      unfold get_next_field
      rw [if_pos h]
  · intro s hlt hrem hcont
    have hne : s.pos ≠ s.buf_end := ne_of_lt hlt
    have hm : ((s.buf_end - s.pos).toNat : Int) = s.buf_end - s.pos :=
      Int.toNat_of_nonneg (by omega)
    have h := read_varint_loop_hits_end (s.buf_end - s.pos).toNat s 0 0
      (by omega)
      (by rw [hm]; ring)
      (by
        intro i hi
        apply hcont
        omega)
    unfold get_next_field
    rw [if_neg hne]
    rw [show read_varint s = .error .UnexpectedEnd from by simpa [read_varint] using h]

/-- Witness for C4: the empty window returns end-of-stream; the 1-byte
window `80` (a truncated tag) fails with `UnexpectedEnd`. -/
theorem get_next_field_spec_witness :
    get_next_field stC4a = .ok none
  ∧ get_next_field stC4b = .error .UnexpectedEnd := by
  constructor
  · exact (get_next_field_spec.1 stC4a).mpr (by decide)
  · refine get_next_field_spec.2 stC4b (by decide) (by decide) ?_
    intro i hi
    simp only [stC4b] at hi
    have : i = 0 := by omega
    subst this
    decide

/-- Every value the varint loop returns fits in 64 bits (the accumulator is
maintained modulo `2 ^ 64`). -/
theorem read_varint_loop_lt (fuel : Nat) :
    ∀ (s : ProtoBufDecoder) (value shift : Nat) (n : Nat) (s' : ProtoBufDecoder),
      64 ≤ shift + 7 * fuel → value < 2 ^ 64 →
      read_varint_loop s value shift = .ok (n, s') → n < 2 ^ 64 := by
  induction fuel with
  | zero =>
    intro s value shift n s' hf _ h
    by_cases hne : s.pos = s.buf_end
    · rw [read_varint_loop, if_pos hne] at h
      exact absurd h (by simp)
    · rw [read_varint_loop, if_neg hne, if_pos (by omega)] at h
      exact absurd h (by simp)
  | succ fuel ih =>
    intro s value shift n s' hf hv h
    by_cases hne : s.pos = s.buf_end
    · rw [read_varint_loop, if_pos hne] at h
      exact absurd h (by simp)
    · by_cases hsh : 64 ≤ shift
      · rw [read_varint_loop, if_neg hne, if_pos hsh] at h
        exact absurd h (by simp)
      · rw [read_varint_loop_step s value shift hne (by omega)] at h
        have hv' : value ||| ((byteAt s s.pos &&& 127) <<< shift % 2 ^ 64) < 2 ^ 64 :=
          Nat.or_lt_two_pow hv (Nat.mod_lt _ (by norm_num))
        by_cases hb : byteAt s s.pos &&& 128 = 0
        · rw [if_pos hb] at h
          have := h
          simp only [Except.ok.injEq, Prod.mk.injEq] at this
          omega
        · rw [if_neg hb] at h
          exact ih _ _ (shift + 7) n s' (by omega) hv' h

/-- Xor with an all-ones mask is complement: for `x < 2 ^ w`,
`x ^^^ (2 ^ w - 1) = 2 ^ w - 1 - x`. -/
theorem xor_allones {w x : Nat} (h : x < 2 ^ w) : x ^^^ (2 ^ w - 1) = 2 ^ w - 1 - x := by
  have h1 : 2 ^ w - 1 - x = 2 ^ w - (x + 1) := by omega
  rw [h1]
  apply Nat.eq_of_testBit_eq
  intro i
  rw [Nat.testBit_xor, Nat.testBit_two_pow_sub_one, Nat.testBit_two_pow_sub_succ h]
  by_cases hi : i < w
  · simp [hi]
  · have hx : x.testBit i = false :=
      Nat.testBit_lt_two_pow
        (lt_of_lt_of_le h (Nat.pow_le_pow_right (by norm_num) (by omega)))
    simp [hi, hx]

/-- The C expression `(value >> 1) ^ (- int64_t(value & 1))` computes the
ZigZag inverse: even codes map to `n / 2`, odd codes to `-(n / 2) - 1`. -/
theorem zigzag_formula (n : Nat) (hn : n < 2 ^ 64) :
    toInt64 ((n >>> 1) ^^^ ((2 ^ 64 - 1) * (n &&& 1))) = zigzag_decode n := by
  have h2 : n &&& 1 = n % 2 := Nat.and_one_is_mod n
  have hsh : n >>> 1 = n / 2 := Nat.shiftRight_one n
  have hhalf : n / 2 < 2 ^ 63 := by omega
  rcases Nat.mod_two_eq_zero_or_one n with h | h
  · rw [h2, hsh, h]
    simp only [Nat.mul_zero, Nat.xor_zero, toInt64, zigzag_decode, h]
    rw [if_pos (by omega : n / 2 % 2 ^ 64 < 2 ^ 63)]
    rw [show n / 2 % 2 ^ 64 = n / 2 from Nat.mod_eq_of_lt (by omega)]
    simp
  · rw [h2, hsh, h, Nat.mul_one, xor_allones (show n / 2 < 2 ^ 64 by omega)]
    simp only [toInt64, zigzag_decode]
    have hmod : (2 ^ 64 - 1 - n / 2) % 2 ^ 64 = 2 ^ 64 - 1 - n / 2 :=
      Nat.mod_eq_of_lt (by omega)
    rw [hmod, if_neg (by omega), if_neg (by omega)]
    omega

/-- The modelled `int64_t` conversion agrees with the specification's
64-bit two's-complement reinterpretation. -/
theorem toInt64_eq_twosComplement (v : Nat) : toInt64 v = twosComplement 64 v := by
  simp [toInt64, twosComplement]

/-- The modelled `int32_t` conversion agrees with the specification's
32-bit two's-complement reinterpretation (already sign-extended as an
integer). -/
theorem toInt32_eq_twosComplement (v : Nat) : toInt32 v = twosComplement 32 v := by
  simp [toInt32, twosComplement]

/-- C5: on wire type VARINT, `parse_zigzag_value` returns the ZigZag
decoding of the varint `n` — `(n >> 1) XOR -(n AND 1)` as a signed 64-bit
value, i.e. `n / 2` for even `n` and `-(n / 2) - 1` for odd `n` (so 0 maps
to 0, 1 to -1, 2 to 1, 3 to -2, 4294967294 to 2147483647, 4294967295 to
-2147483648); on FIXED64 or FIXED32 it reinterprets the little-endian
fixed-width integer as a two's-complement signed value of that width, the
32-bit case sign-extending to 64 bits. -/
theorem parse_zigzag_value_spec :
    (∀ (s : ProtoBufDecoder) (n : Nat) (s' : ProtoBufDecoder),
        read_varint s = .ok (n, s') →
        parse_zigzag_value s 0 = .ok (zigzag_decode n, s'))
  ∧ (∀ (s : ProtoBufDecoder) (v : Nat) (s' : ProtoBufDecoder),
        read_fixed_width s 8 = .ok (v, s') →
        parse_zigzag_value s 1 = .ok (twosComplement 64 v, s'))
  ∧ (∀ (s : ProtoBufDecoder) (v : Nat) (s' : ProtoBufDecoder),
        read_fixed_width s 4 = .ok (v, s') →
        parse_zigzag_value s 5 = .ok (twosComplement 32 v, s')) := by
  refine ⟨?_, ?_, ?_⟩
  · intro s n s' h
    have hn : n < 2 ^ 64 := by
      apply read_varint_loop_lt 10 s 0 0 n s' (by norm_num) (by norm_num)
      simpa [read_varint] using h
    unfold parse_zigzag_value
    rw [if_pos rfl, h]
    exact congrArg (fun z => Except.ok (z, s')) (zigzag_formula n hn)
  · intro s v s' h
    unfold parse_zigzag_value
    rw [if_neg (by norm_num), if_pos rfl, h]
    exact congrArg (fun z => Except.ok (z, s')) (toInt64_eq_twosComplement v)
  · intro s v s' h
    unfold parse_zigzag_value
    rw [if_neg (by norm_num), if_neg (by norm_num), if_pos rfl, h]
    exact congrArg (fun z => Except.ok (z, s')) (toInt32_eq_twosComplement v)

/-- Witness for C5: varint `03` decodes to -2; the fixed32 bytes
`FF FF FF FF` reinterpret to -1. -/
theorem parse_zigzag_value_spec_witness :
    (parse_zigzag_value stC5a 0).map (fun p => (p.1, p.2.pos)) = .ok (-2, 1)
  ∧ (parse_zigzag_value stC5b 5).map (fun p => (p.1, p.2.pos)) = .ok (-1, 4) := by
  constructor
  · have hr : read_varint stC5a = .ok (3, ⟨stC5a.buf, 1, 1⟩) := by
      rw [read_varint, read_varint_loop_step stC5a 0 0 (by decide) (by decide),
        if_pos (by decide)]
      rfl
    have h := parse_zigzag_value_spec.1 stC5a 3 ⟨stC5a.buf, 1, 1⟩ hr
    rw [h]
    decide
  · have hr : read_fixed_width stC5b 4 = .ok (4294967295, ⟨stC5b.buf, 4, 4⟩) := rfl
    have h := parse_zigzag_value_spec.2.2 stC5b 4294967295 ⟨stC5b.buf, 4, 4⟩ hr
    rw [h]
    decide

/-- C2 (refuting evaluation): at `stC2` the LEN length prefix is `2 ^ 32`
while zero bytes remain before the window end, yet `parse_bytearray_value`
succeeds — `advance_ptr` receives the prefix narrowed to the C `int` value
`0` — and returns a view of length `2 ^ 32` that starts before the window,
instead of failing with `UnexpectedEnd`. -/
theorem parse_bytearray_value_len_overflow :
    (parse_bytearray_value stC2 2).map (fun p => (p.1, p.2.pos)) =
      .ok (⟨5 - 2 ^ 32, 2 ^ 32⟩, 5)
  ∧ stC2.buf_end - stC2.pos < 2 ^ 32
  ∧ (5 - 2 ^ 32 : Int) < 0 := by
  refine ⟨?_, by decide, by decide⟩
  simp [parse_bytearray_value, read_varint, read_varint_loop, stC2, bufC2, byteAt]
  decide

/-- C3 (refuting evaluation): at `stC3` the LEN length prefix is `2 ^ 31`,
which narrows to the negative C `int` `-2 ^ 31`; `advance_ptr`'s bounds
check passes and the cursor moves backward, ending below the starting
cursor (and below the window start), violating the cursor monotonicity
invariant. -/
theorem parse_bytearray_value_cursor_backward :
    (parse_bytearray_value stC3 2).map (fun p => p.2.pos) = .ok (5 - 2 ^ 31)
  ∧ (5 - 2 ^ 31 : Int) < stC3.pos := by
  refine ⟨?_, by decide⟩
  simp [parse_bytearray_value, read_varint, read_varint_loop, stC3, bufC3, byteAt]
  decide

/-- C6 (refuting evaluation): `stC6` holds a well-formed LEN value — length
prefix `2 ^ 31` followed by exactly `2 ^ 31` payload bytes inside the
window — but `skip_field` moves the cursor to `5 - 2 ^ 31` instead of
advancing it by the value's byte length to `5 + 2 ^ 31` (the window
end). -/
theorem skip_field_len_narrowing_bug :
    (skip_field stC6 2).map (fun s => s.pos) = .ok (5 - 2 ^ 31)
  ∧ (5 - 2 ^ 31 : Int) ≠ 5 + 2 ^ 31
  ∧ stC6.buf_end = 5 + 2 ^ 31 := by
  refine ⟨?_, by decide, by decide⟩
  simp [skip_field, read_varint, read_varint_loop, stC6, bufC6, byteAt]
  decide

/-- C9 (refuting evaluation): when the descriptor decode fails, `main`
prints the single-line diagnostic but still exits with code 0 — the `catch`
block falls through to `return 0` — contradicting the specified non-zero
exit code on decode failure. -/
theorem main_model_exit_code_bug :
    ∀ e : PBErr, main_model 2 (.error e) = (0, true) := fun _ => rfl

/-- C10: `generator` indexes `proto.file[0]` with no emptiness check: on a
`FileDescriptorSet` whose file list is empty the lookup's `none` branch is
reached (rather than the generator emitting nothing and succeeding), and on
a non-empty list exactly the first file's messages are emitted. -/
theorem generator_requires_nonempty_file :
    generator ⟨[]⟩ = none
  ∧ ∀ (f : FileDescriptorProto) (rest : List FileDescriptorProto),
      generator ⟨f :: rest⟩ = some (f.message_type.map genMessage) :=
  ⟨rfl, fun _ _ => by simp [generator]⟩

/-- Closed form of the generator's per-field accumulation loop. -/
theorem genMessage_foldl (name : String) :
    ∀ (l : List FieldDescriptorProto) (acc : MessageOut),
      l.foldl (genField name) acc =
        { name := acc.name,
          fields_defs := acc.fields_defs ++
            l.map (fun f => ⟨type_string f, f.name, default_string f⟩),
          has_fields_defs := acc.has_fields_defs ++
            (l.filter (fun f => !decide (f.label = .LABEL_REPEATED))).map
              (fun f => ⟨f.name, false⟩),
          decode_cases := acc.decode_cases ++
            l.map (fun f =>
              ⟨f.number, decide (f.label = .LABEL_REPEATED), domain_string f, f.name⟩),
          check_required_fields := acc.check_required_fields ++
            (l.filter (fun f => decide (f.label = .LABEL_REQUIRED))).map
              (fun f => ⟨name, f.name⟩) } := by
  intro l
  induction l with
  | nil => intro acc; simp
  | cons f t ih =>
    intro acc
    rw [List.foldl_cons, ih]
    by_cases hrep : f.label = Label.LABEL_REPEATED
    · simp [genField, hrep]
    · by_cases hreq : f.label = Label.LABEL_REQUIRED
      · simp [genField, hrep, hreq]
      · simp [genField, hrep, hreq]

/-- C7: the generator emits, after the dispatch loop, exactly one required
check per REQUIRED field (in descriptor order, testing a presence flag that
is emitted for that field, initialized false); running the emitted check
sequence succeeds iff every checked flag is true, and otherwise fails with
`MissingRequired` naming the message and the first REQUIRED field whose
flag is unset; the hand-written `Filter` example's post-loop check likewise
returns normally when `has_size` is set and fails with
`MissingRequired(Filter, size)` otherwise. -/
theorem required_checks_spec :
    (∀ m : DescriptorProto,
        (genMessage m).check_required_fields =
          (m.field.filter (fun f => decide (f.label = .LABEL_REQUIRED))).map
            (fun f => ⟨m.name, f.name⟩))
  ∧ (∀ (checks : List ReqCheck) (has : String → Bool),
        run_required_checks checks has = .ok () ↔
          ∀ c ∈ checks, has c.field_name = true)
  ∧ (∀ (checks : List ReqCheck) (has : String → Bool) (c : ReqCheck),
        checks.find? (fun c => !has c.field_name) = some c →
        run_required_checks checks has =
          .error (.MissingRequired c.message_name c.field_name))
  ∧ (∀ (m : DescriptorProto) (c : ReqCheck),
        c ∈ (genMessage m).check_required_fields →
        (⟨c.field_name, false⟩ : HasFieldDef) ∈ (genMessage m).has_fields_defs)
  ∧ (∀ b : Bool, Filter_check_required b =
        if b then .ok () else .error (.MissingRequired "Filter" "size")) := by
  refine ⟨?_, ?_, ?_, ?_, ?_⟩
  · intro m
    rw [genMessage, genMessage_foldl]
    simp
  · intro checks has
    induction checks with
    | nil => simp [run_required_checks]
    | cons c rest ih =>
      rw [run_required_checks]
      by_cases hc : has c.field_name = false
      · simp [hc]
      · simp only [Bool.not_eq_false] at hc
        simp [hc, ih]
  · intro checks has
    induction checks with
    | nil => intro c h; simp at h
    | cons d rest ih =>
      intro c h
      rw [List.find?_cons] at h
      rw [run_required_checks]
      by_cases hd : has d.field_name = false
      · rw [if_pos hd]
        simp [hd] at h
        rw [h]
      · simp only [Bool.not_eq_false] at hd
        rw [if_neg (by simp [hd])]
        simp [hd] at h
        exact ih c h
  · intro m c hc
    rw [genMessage, genMessage_foldl] at hc
    simp only [List.nil_append, List.mem_map, List.mem_filter] at hc
    obtain ⟨f, ⟨hf, hreq⟩, rfl⟩ := hc
    rw [genMessage, genMessage_foldl]
    simp only [List.nil_append, List.mem_map, List.mem_filter]
    refine ⟨f, ⟨hf, ?_⟩, rfl⟩
    simp only [decide_eq_true_eq] at hreq
    simp [hreq]
  · intro b
    cases b <;> rfl

/-- Witness for C7: with every flag unset, the checks emitted for
`exampleMsg` fail with `MissingRequired(Filter, size)`, and the tested flag
`has_size` is among the emitted flags. -/
theorem required_checks_spec_witness :
    run_required_checks (genMessage exampleMsg).check_required_fields
        (fun _ => false) = .error (.MissingRequired "Filter" "size")
  ∧ (⟨"size", false⟩ : HasFieldDef) ∈ (genMessage exampleMsg).has_fields_defs := by
  constructor
  · exact required_checks_spec.2.2.1 _ (fun _ => false) ⟨"Filter", "size"⟩ (by decide)
  · exact required_checks_spec.2.2.2.1 exampleMsg ⟨"Filter", "size"⟩ (by decide)

/-- C8: for every field of every message, the generator emits a REPEATED
field as `std::vector<base scalar>` with no presence flag and a dispatch
case calling `parse_repeated_<domain>_field`, and an OPTIONAL/REQUIRED
field as a single base scalar with a companion presence flag initialized
false and a dispatch case calling `parse_<domain>_field` with the flag;
the dispatch table has one case per field keyed by `field.number`, and a
field number matching no case dispatches to `skip_field(wire_type)`. -/
theorem generator_field_mapping :
    (∀ m : DescriptorProto,
        (genMessage m).fields_defs =
          m.field.map (fun f => ⟨type_string f, f.name, default_string f⟩))
  ∧ (∀ m : DescriptorProto,
        (genMessage m).has_fields_defs =
          (m.field.filter (fun f => !decide (f.label = .LABEL_REPEATED))).map
            (fun f => ⟨f.name, false⟩))
  ∧ (∀ m : DescriptorProto,
        (genMessage m).decode_cases =
          m.field.map (fun f =>
            ⟨f.number, decide (f.label = .LABEL_REPEATED), domain_string f,
              f.name⟩))
  ∧ (∀ f : FieldDescriptorProto, f.label = .LABEL_REPEATED →
        type_string f = "std::vector<" ++ base_type_string f ++ ">")
  ∧ (∀ f : FieldDescriptorProto, f.label ≠ .LABEL_REPEATED →
        type_string f = base_type_string f)
  ∧ (∀ (cases : List DecodeCase) (n : Int),
        (∀ c ∈ cases, c.number ≠ n) →
        dispatch_case cases n = .skip_unknown) := by
  refine ⟨?_, ?_, ?_, ?_, ?_, ?_⟩
  · intro m
    rw [genMessage, genMessage_foldl]
    simp
  · intro m
    rw [genMessage, genMessage_foldl]
    simp
  · intro m
    rw [genMessage, genMessage_foldl]
    simp
  · intro f hf
    rw [type_string, if_pos hf]
  · intro f hf
    rw [type_string, if_neg hf]
  · intro cases n h
    rw [dispatch_case]
    have hfind : cases.find? (fun c => c.number == n) = none := by
      rw [List.find?_eq_none]
      intro c hc
      simp [h c hc]
    rw [hfind]

/-- Witness for C8: the repeated `uint32` field is emitted as
`std::vector<uint32_t>`, and an undeclared field number dispatches to the
skip action. -/
theorem generator_field_mapping_witness :
    type_string ⟨"more_ints", 11, .LABEL_REPEATED, .TYPE_UINT32, "", false, ""⟩ =
      "std::vector<uint32_t>"
  ∧ dispatch_case (genMessage exampleMsg).decode_cases 99 = .skip_unknown := by
  constructor
  · have h := generator_field_mapping.2.2.2.1
      ⟨"more_ints", 11, .LABEL_REPEATED, .TYPE_UINT32, "", false, ""⟩ rfl
    rw [h]
    decide
  · exact generator_field_mapping.2.2.2.2.2 (genMessage exampleMsg).decode_cases 99
      (by decide)
